import Mathlib

/-!
Verification development for the lolcommits-rs repository.

This file gives a shallow embedding, in Lean 4, of the pure algorithmic
content of the repository:

* src/git.rs              — conventional-commit parsing and diff statistics
* src/image_metadata.rs   — PNG text-chunk metadata codec and filename fallback
* src/image_processor.rs  — stat formatting, background replacement, chyron
* src/server.rs           — the asynchronous ingestion pipeline

Rust machine integers (u8, u32) are modelled as Nat, with wrapping or
checked subtraction made explicit where the source relies on it.  Rust f32
values appearing in the image pipeline are modelled as exact rationals; the
saturating `as u8` cast is modelled by the truncation function toU8 below.
Strings are Lean Strings; Rust byte-slicing is modelled on the character
list (the data involved is ASCII).
-/

/-- Truncation of a rational toward zero, the behaviour of Rust's `as i32`
cast on an in-range f32 value. -/
def truncQ (q : ℚ) : ℤ := Int.sign q.num * (q.num.natAbs / q.den : ℕ)

/-- Saturating truncation of a rational to an 8-bit value, the behaviour of
Rust's `as u8` cast on an f32 value. -/
def toU8 (q : ℚ) : ℕ := if q ≤ 0 then 0 else min 255 (q.num.toNat / q.den)

/-- Little-endian decimal digits of a natural number, with explicit fuel so
that the definition is structural (the fuel `n` itself always suffices). -/
def decDigitsAux : ℕ → ℕ → List ℕ
  | 0, _ => []
  | fuel + 1, n => if n = 0 then [] else n % 10 :: decDigitsAux fuel (n / 10)

/-- Decimal string of a natural number, the model of Rust `u32::to_string`. -/
def natToStr (n : ℕ) : String :=
  if n = 0 then "0" else String.mk (((decDigitsAux n n).reverse).map Nat.digitChar)

/-- Numeric value accumulated over a big-endian digit character list, the
accumulation loop of Rust `str::parse::<u32>`. -/
def digitsVal (l : List Char) : ℕ := l.foldl (fun a c => a * 10 + (c.toNat - 48)) 0

/-- Model of Rust `str::parse::<u32>` (an optional leading plus sign, then
one or more decimal digits, rejecting values over u32::MAX). -/
def parseU32 (s : String) : Option ℕ :=
  let l0 := s.toList
  let l := if l0.headD 'x' = '+' then l0.tail else l0
  if l = [] then none
  else if l.all Char.isDigit then
    if digitsVal l < 4294967296 then some (digitsVal l) else none
  else none

/-- Index of the first occurrence of a character in a list, the model of
Rust `str::find(char)` (ASCII data, so byte and character indices agree). -/
def findCharIdx (c : Char) : List Char → Option ℕ
  | [] => none
  | a :: as => if a = c then some 0 else (findCharIdx c as).map (· + 1)

/-- Model of Rust `str::trim` (drop whitespace at both ends). -/
def trimL (l : List Char) : List Char :=
  ((l.dropWhile Char.isWhitespace).reverse.dropWhile Char.isWhitespace).reverse

/-- Model of Rust `message.lines().next().unwrap_or(message)`: everything up
to the first newline, with a carriage return stripped before that newline. -/
def firstLineL (m : List Char) : List Char :=
  let fl := m.takeWhile (fun c => c ≠ '\n')
  if fl.length < m.length ∧ fl.getLast? = some '\r' then fl.dropLast else fl

/-! ## src/git.rs -/

/-- Diff statistics (git.rs, `DiffStats`); the u32 fields are Nats. -/
structure DiffStats where
  files_changed : ℕ
  insertions : ℕ
  deletions : ℕ
deriving DecidableEq

/-- git.rs `DiffStats::is_empty`. -/
def diff_stats_is_empty (s : DiffStats) : Bool :=
  s.files_changed == 0 && s.insertions == 0 && s.deletions == 0

/-- Commit metadata (git.rs, `CommitMetadata`).  The `path` field of the
Rust struct is a runtime-only annotation: it is excluded from serialization
(`#[serde(skip_serializing)]`), never written to the PNG chunk set, and the
decoder sets it to an empty path for the caller to overwrite; it is
therefore not part of the persisted data model and is omitted here. -/
structure CommitMetadata where
  sha : String
  message : String
  commit_type : String
  scope : String
  timestamp : String
  repo_name : String
  branch_name : String
  stats : DiffStats
deriving DecidableEq

/-- git.rs `CommitMetadata::diff_stats_string`. -/
def diff_stats_string (s : DiffStats) : String :=
  if diff_stats_is_empty s then "" else
  let p1 := natToStr s.files_changed ++ " file" ++
    (if s.files_changed = 1 then "" else "s") ++ " changed"
  let p2 := if 0 < s.insertions then
      [natToStr s.insertions ++ " insertion" ++
        (if s.insertions = 1 then "" else "s") ++ "(+)"] else []
  let p3 := if 0 < s.deletions then
      [natToStr s.deletions ++ " deletion" ++
        (if s.deletions = 1 then "" else "s") ++ "(-)"] else []
  String.intercalate ", " (p1 :: (p2 ++ p3))

/-- git.rs `parse_commit_type`: the text before the colon on the first line
(cut at an opening parenthesis and trimmed), defaulting to "commit". -/
def parse_commit_type (message : String) : String :=
  let fl := firstLineL message.toList
  match findCharIdx ':' fl with
  | some p =>
      let pre := fl.take p
      (match findCharIdx '(' pre with
       | some q => String.mk (trimL (pre.take q))
       | none => String.mk (trimL pre))
  | none => "commit"

/-- git.rs `strip_commit_prefix`: the trimmed text after the first colon, or
the message unchanged when it has no colon. -/
def strip_commit_prefix_fn (message : String) : String :=
  match findCharIdx ':' message.toList with
  | some p => String.mk (trimL (message.toList.drop (p + 1)))
  | none => message

/-- git.rs `parse_commit_scope`: the trimmed text between parentheses before
the first colon, or empty. -/
def parse_commit_scope (message : String) : String :=
  match findCharIdx ':' message.toList with
  | some p =>
      let pre := message.toList.take p
      (match findCharIdx '(' pre, findCharIdx ')' pre with
       | some o, some c => String.mk (trimL ((pre.take c).drop (o + 1)))
       | _, _ => "")
  | none => ""

/-! ## src/image_metadata.rs — PNG metadata codec

The PNG container itself (zlib-compressed scanlines, chunk CRCs) is the
external `png` crate and is lossless for the 8-bit RGBA payload; the
encoded artifact is modelled as the pixel payload together with the list of
tEXt chunks, which is exactly the information `save_png_with_metadata`
chooses and `read_png_metadata` consumes. -/

/-- One PNG tEXt chunk: a keyword and its text. -/
structure TextChunk where
  keyword : String
  text : String
deriving DecidableEq

/-- An RGBA pixel (four 8-bit samples). -/
def RgbaPixel := ℕ × ℕ × ℕ × ℕ
deriving DecidableEq

/-- An encoded artifact: the RGBA pixel payload and the tEXt chunk list. -/
structure EncodedPng where
  pixels : List RgbaPixel
  chunks : List TextChunk
deriving DecidableEq

/-- The chunk list written by image_metadata.rs `save_png_with_metadata`:
one chunk per metadata field under the `lolcommit:` namespace, with the
scope chunk omitted when the scope is empty, and the numeric diff-stat
fields written in decimal. -/
def save_chunks (md : CommitMetadata) : List TextChunk :=
  [⟨"lolcommit:sha", md.sha⟩,
   ⟨"lolcommit:message", md.message⟩,
   ⟨"lolcommit:type", md.commit_type⟩]
  ++ (if md.scope = "" then [] else [⟨"lolcommit:scope", md.scope⟩])
  ++ [⟨"lolcommit:timestamp", md.timestamp⟩,
      ⟨"lolcommit:repo", md.repo_name⟩,
      ⟨"lolcommit:branch", md.branch_name⟩,
      ⟨"lolcommit:diff", diff_stats_string md.stats⟩,
      ⟨"lolcommit:files_changed", natToStr md.stats.files_changed⟩,
      ⟨"lolcommit:insertions", natToStr md.stats.insertions⟩,
      ⟨"lolcommit:deletions", natToStr md.stats.deletions⟩]

/-- image_metadata.rs `save_png_with_metadata`: write the RGBA payload and
the metadata chunk list (the input image is already RGBA here, so the
`to_rgba8` conversion is the identity). -/
def save_png_with_metadata (image : List RgbaPixel) (md : CommitMetadata) : EncodedPng :=
  ⟨image, save_chunks md⟩

/-- The mutable accumulator of `read_png_metadata`'s chunk loop. -/
structure ReadAcc where
  sha : String
  message : String
  commit_type : String
  scope : String
  timestamp : String
  repo_name : String
  branch_name : String
  files_changed : ℕ
  insertions : ℕ
  deletions : ℕ
  found_any : Bool

/-- One iteration of `read_png_metadata`'s loop over the tEXt chunks. -/
def read_chunk_step (st : ReadAcc) (c : TextChunk) : ReadAcc :=
  match c.keyword with
  | "lolcommit:sha" => { st with sha := c.text, found_any := true }
  | "lolcommit:message" => { st with message := c.text, found_any := true }
  | "lolcommit:type" => { st with commit_type := c.text, found_any := true }
  | "lolcommit:scope" => { st with scope := c.text, found_any := true }
  | "lolcommit:timestamp" => { st with timestamp := c.text, found_any := true }
  | "lolcommit:repo" => { st with repo_name := c.text, found_any := true }
  | "lolcommit:branch" => { st with branch_name := c.text, found_any := true }
  | "lolcommit:files_changed" =>
      { st with files_changed := (parseU32 c.text).getD 0, found_any := true }
  | "lolcommit:insertions" =>
      { st with insertions := (parseU32 c.text).getD 0, found_any := true }
  | "lolcommit:deletions" =>
      { st with deletions := (parseU32 c.text).getD 0, found_any := true }
  | _ => st

/-- image_metadata.rs `read_png_metadata`: fold the chunk list over the
field accumulator; `Some` when any namespaced chunk was seen. -/
def read_png_metadata (chunks : List TextChunk) : Option CommitMetadata :=
  let st := chunks.foldl read_chunk_step ⟨"", "", "", "", "", "", "", 0, 0, 0, false⟩
  if st.found_any then
    some ⟨st.sha, st.message, st.commit_type, st.scope, st.timestamp,
          st.repo_name, st.branch_name, ⟨st.files_changed, st.insertions, st.deletions⟩⟩
  else none

/-- Decoding an encoded artifact: the pixel payload and the recovered
metadata. -/
def decode_png (p : EncodedPng) : List RgbaPixel × Option CommitMetadata :=
  (p.pixels, read_png_metadata p.chunks)

/-- Split a character list at every dash, the model of Rust
`str::split('-')` (an empty input yields one empty part, like Rust). -/
def splitDash (l : List Char) : List (List Char) :=
  l.foldr
    (fun c acc =>
      if c = '-' then [] :: acc
      else match acc with
        | h :: t => (c :: h) :: t
        | [] => [[c]])
    [[]]

/-- Join character lists with dashes, the model of the `"{}-{}"` rebuild of
the remainder in Rust `rsplitn`. -/
def joinDash (ls : List (List Char)) : List Char :=
  match ls with
  | [] => []
  | h :: t => h ++ (t.flatMap (fun p => '-' :: p))

/-- Model of Rust `name.rsplitn(3, '-').collect::<Vec<_>>()`: the last two
dash-separated parts, then the undivided remainder. -/
def rsplitn3 (l : List Char) : List (List Char) :=
  let parts := splitDash l
  if parts.length ≤ 3 then parts.reverse
  else
    match parts.reverse with
    | a :: b :: rest => [a, b, joinDash rest.reverse]
    | r => r

/-- image_metadata.rs `parse_timestamp`: reformat a 15-character
`YYYYMMDD-HHMMSS` string as `YYYY-MM-DD HH:MM:SS` (byte slicing on ASCII
data, modelled on the character list). -/
def parse_timestamp (ts : String) : Option String :=
  let l := ts.toList
  if l.length ≠ 15 then none
  else
    some (String.mk (l.take 4) ++ "-" ++ String.mk ((l.drop 4).take 2) ++ "-" ++
          String.mk ((l.drop 6).take 2) ++ " " ++ String.mk ((l.drop 9).take 2) ++ ":" ++
          String.mk ((l.drop 11).take 2) ++ ":" ++ String.mk ((l.drop 13).take 2))

/-- Model of Rust `filename.strip_suffix(".png")`. -/
def stripPngSuffix (filename : String) : Option (List Char) :=
  let l := filename.toList
  if 4 ≤ l.length ∧ l.drop (l.length - 4) = ['.', 'p', 'n', 'g'] then
    some (l.take (l.length - 4))
  else none

/-- The filename-fallback branch of image_metadata.rs `parse_image_file`
(lines 158-192): split the stem from the right into sha, time part and repo
name, and reformat the time part for display. -/
def parse_image_fallback (filename : String) : Option CommitMetadata :=
  match stripPngSuffix filename with
  | none => none
  | some name =>
    let parts := rsplitn3 name
    if parts.length ≠ 3 then none
    else
      let sha := String.mk (parts.getD 0 [])
      let time_part := String.mk (parts.getD 1 [])
      let repo_name := String.mk (parts.getD 2 [])
      let timestamp := (parse_timestamp time_part).getD (repo_name ++ "-" ++ time_part)
      some ⟨sha, "", "", "", timestamp, repo_name, "", ⟨0, 0, 0⟩⟩

/-- image_metadata.rs `parse_image_file`: embedded PNG metadata when
present, otherwise the filename fallback.  The first argument is the result
of `read_png_metadata` on the file. -/
def parse_image_file (png_meta : Option CommitMetadata) (filename : String) :
    Option CommitMetadata :=
  match png_meta with
  | some m => some m
  | none => parse_image_fallback filename

/-! ## src/image_processor.rs -/

/-- One-decimal rendering of the quotient n / d, the model of Rust
`format!("{:.1}", n as f32 / d as f32)` for the magnitudes produced by
`format_stat_number` (d is 10^3 or 10^6 and n < 2^32, where exact rounding
to one decimal, ties to even, agrees with the printed f32 value). -/
def fmt1dec (n d : ℕ) : String :=
  let t10 := 10 * n / d
  let r := 10 * n % d
  let t := if 2 * r < d then t10
           else if d < 2 * r then t10 + 1
           else if t10 % 2 = 0 then t10 else t10 + 1
  natToStr (t / 10) ++ "." ++ natToStr (t % 10)

/-- image_processor.rs `format_stat_number`: plain decimal up to 999, then
one-decimal `k` and `M` suffixes. -/
def format_stat_number (n : ℕ) : String :=
  if n ≤ 999 then natToStr n
  else if n < 1000000 then fmt1dec n 1000 ++ "k"
  else fmt1dec n 1000000 ++ "M"

/-- The centroid accumulation loop of `replace_background` (lines 287-302):
sum of x * weight over pixels whose mask weight exceeds 0.1. -/
def mask_sum_x (w h : ℕ) (mask : ℕ → ℚ) : ℚ :=
  (List.range h).foldl
    (fun acc y => (List.range w).foldl
      (fun a x => if 1 / 10 < mask (y * w + x) then a + x * mask (y * w + x) else a) acc) 0

/-- Sum of y * weight over pixels whose mask weight exceeds 0.1. -/
def mask_sum_y (w h : ℕ) (mask : ℕ → ℚ) : ℚ :=
  (List.range h).foldl
    (fun acc y => (List.range w).foldl
      (fun a x => if 1 / 10 < mask (y * w + x) then a + y * mask (y * w + x) else a) acc) 0

/-- Sum of the weights over pixels whose mask weight exceeds 0.1. -/
def mask_total (w h : ℕ) (mask : ℕ → ℚ) : ℚ :=
  (List.range h).foldl
    (fun acc y => (List.range w).foldl
      (fun a x => if 1 / 10 < mask (y * w + x) then a + mask (y * w + x) else a) acc) 0

/-- `replace_background` lines 304-308: the person center is the
mask-weighted centroid, defaulting to the image center when no pixel
exceeded the threshold. -/
def person_center (w h : ℕ) (mask : ℕ → ℚ) : ℚ × ℚ :=
  if 0 < mask_total w h mask then
    (mask_sum_x w h mask / mask_total w h mask, mask_sum_y w h mask / mask_total w h mask)
  else ((w : ℚ) / 2, (h : ℚ) / 2)

/-- `replace_background` lines 310-314: the integer offset moving the
person center to the image center (f32 to i32 cast truncates toward
zero). -/
def bg_offset (w h : ℕ) (mask : ℕ → ℚ) : ℤ × ℤ :=
  (truncQ ((w : ℚ) / 2 - (person_center w h mask).1),
   truncQ ((h : ℚ) / 2 - (person_center w h mask).2))

/-- An RGB pixel (three 8-bit samples). -/
def RgbPixel := ℕ × ℕ × ℕ
deriving DecidableEq

/-- The body of the compositing loop of `replace_background`
(lines 344-380) at destination pixel (x, y): sample the foreground and the
mask at the offset source position when it is in bounds and alpha-blend
against the background, otherwise pass the background through.  Pixels are
indexed row-major by y * w + x as in the source. -/
def composite_at (w h : ℕ) (mask : ℕ → ℚ) (fg bg : ℕ → RgbPixel) (x y : ℕ) : RgbPixel :=
  let off := bg_offset w h mask
  let sx : ℤ := (x : ℤ) - off.1
  let sy : ℤ := (y : ℤ) - off.2
  let d := y * w + x
  if 0 ≤ sx ∧ sx < (w : ℤ) ∧ 0 ≤ sy ∧ sy < (h : ℤ) then
    let si := sy.toNat * w + sx.toNat
    let a := mask si
    (toU8 ((fg si).1 * a + (bg d).1 * (1 - a)),
     toU8 ((fg si).2.1 * a + (bg d).2.1 * (1 - a)),
     toU8 ((fg si).2.2 * a + (bg d).2.2 * (1 - a)))
  else bg d

/-- Modelled from the spec claim wording: the pure per-pixel blend
`source * mask + background * (1 - mask)` taken at the destination pixel
itself, with no spatial shift.  Stated separately so the compositing loop
can be compared against it. -/
def pure_blend_at (w : ℕ) (mask : ℕ → ℚ) (fg bg : ℕ → RgbPixel) (x y : ℕ) : RgbPixel :=
  let d := y * w + x
  let a := mask d
  (toU8 ((fg d).1 * a + (bg d).1 * (1 - a)),
   toU8 ((fg d).2.1 * a + (bg d).2.1 * (1 - a)),
   toU8 ((fg d).2.2 * a + (bg d).2.2 * (1 - a)))

/-- `overlay_chyron` line 407: `let y_start = height - chyron_height;` in
u32 arithmetic with no guard, so a wrapping subtraction (heights are u32
values, below 2^32). -/
def chyron_y_start (h : ℕ) : ℕ := (h + (4294967296 - 80)) % 4294967296

/-- A checked u32 subtraction: `none` is the overflow panic that the debug
build raises for `height - 80` when the height is below 80. -/
def u32_checked_sub (a b : ℕ) : Option ℕ := if b ≤ a then some (a - b) else none

/-- Reinterpretation of a u32 value as an i32, the `y_start as i32` cast of
`overlay_chyron`. -/
def u32_as_i32 (n : ℕ) : ℤ := if n < 2147483648 then (n : ℤ) else (n : ℤ) - 4294967296

/-- The band-drawing loop of `overlay_chyron` (lines 406-424) as a function
on pixels: rows from `y_start` up to the height get each colour channel
blended toward black by the configured opacity (`0 * op + v * (1 - op)`,
cast back to u8), with the alpha sample kept; all other pixels are
untouched. -/
def chyron_band (h : ℕ) (op : ℚ) (px : ℕ → ℕ → RgbaPixel) (x y : ℕ) : RgbaPixel :=
  if chyron_y_start h ≤ y ∧ y < h then
    let p := px x y
    (toU8 (0 * op + p.1 * (1 - op)),
     toU8 (0 * op + p.2.1 * (1 - op)),
     toU8 (0 * op + p.2.2.1 * (1 - op)),
     p.2.2.2)
  else px x y

/-- A text item drawn by `overlay_chyron`: colour, position, text (fonts
and scales are resolved externally and do not affect which text lands
where). -/
structure DrawnText where
  color : RgbaPixel
  x : ℤ
  y : ℤ
  text : String
deriving DecidableEq

/-- `overlay_chyron` lines 467-469: the files-changed segment text. -/
def files_str (s : DiffStats) : String := "(" ++ format_stat_number s.files_changed ++ ")"

/-- `overlay_chyron` lines 474-475: the insertions segment text. -/
def insert_str (s : DiffStats) : String := "+" ++ format_stat_number s.insertions

/-- `overlay_chyron` lines 481-482: the deletions segment text. -/
def delete_str (s : DiffStats) : String := "-" ++ format_stat_number s.deletions

/-- The stats-block width computation of `overlay_chyron` (lines 463-486):
ten estimated pixels per character for every segment that will be drawn,
plus a ten-pixel gap after the files and insertions segments; a field whose
value is zero contributes nothing. -/
def stats_total_width (s : DiffStats) : ℤ :=
  (if 0 < s.files_changed then ((files_str s).length : ℤ) * 10 + 10 else 0) +
  (if 0 < s.insertions then ((insert_str s).length : ℤ) * 10 + 10 else 0) +
  (if 0 < s.deletions then ((delete_str s).length : ℤ) * 10 else 0)

/-- `overlay_chyron` lines 462-489: the left edge of the right-aligned
stats/revision block. -/
def stats_start_x (w : ℕ) (s : DiffStats) : ℤ :=
  if diff_stats_is_empty s then (w : ℤ) - 150 else (w : ℤ) - 30 - stats_total_width s

/-- The colorized stats drawing of `overlay_chyron` (lines 508-562): the
files count in yellow, insertions in green, deletions in red, each advanced
by its estimated width plus a gap, and each omitted when its value is
zero. -/
def stats_draw_items (w : ℕ) (info_y : ℤ) (s : DiffStats) : List DrawnText :=
  if diff_stats_is_empty s then [] else
  let x0 := stats_start_x w s
  let l1 : List DrawnText :=
    if 0 < s.files_changed then [⟨(255, 255, 0, 255), x0, info_y, files_str s⟩] else []
  let x1 := if 0 < s.files_changed then x0 + ((files_str s).length : ℤ) * 10 + 10 else x0
  let l2 : List DrawnText :=
    if 0 < s.insertions then [⟨(0, 255, 0, 255), x1, info_y, insert_str s⟩] else []
  let x2 := if 0 < s.insertions then x1 + ((insert_str s).length : ℤ) * 10 + 10 else x1
  let l3 : List DrawnText :=
    if 0 < s.deletions then [⟨(255, 0, 0, 255), x2, info_y, delete_str s⟩] else []
  l1 ++ l2 ++ l3

/-- `overlay_chyron` line 493: the first seven characters of the sha (byte
slicing on an ASCII sha). -/
def sha_short (sha : String) : String :=
  if 7 < sha.length then String.mk (sha.toList.take 7) else sha

/-- The full list of text items drawn by `overlay_chyron` (lines 426-562),
in draw order: the title line showing `metadata.message`, the info line,
the short revision when the sha is nonempty, then the colorized stats. -/
def chyron_texts (w h : ℕ) (md : CommitMetadata) : List DrawnText :=
  let y_start := u32_as_i32 (chyron_y_start h)
  let title_y := y_start + 10
  let info_y := y_start + 45
  let info_text :=
    if md.scope = "" then md.commit_type.toUpper ++ " • " ++ md.repo_name
    else md.commit_type.toUpper ++ " • " ++ md.scope ++ " • " ++ md.repo_name
  [⟨(255, 255, 255, 255), 15, title_y, md.message⟩,
   ⟨(180, 180, 180, 255), 15, info_y, info_text⟩]
  ++ (if md.sha = "" then []
      else [⟨(255, 255, 0, 255), stats_start_x w md.stats, title_y, sha_short md.sha⟩])
  ++ stats_draw_items w info_y md.stats

/-- capture.rs lines 95-115: the metadata bundle built by the capture
client and reassembled by the server (server.rs lines 346-360) before the
chyron is drawn.  The commit message is carried whole; only `commit_type`
and `scope` are parsed out of it. -/
def capture_commit_metadata (revision message timestamp repo_name branch_name : String)
    (stats : DiffStats) : CommitMetadata :=
  ⟨revision, message, parse_commit_type message,
   parse_commit_scope (String.mk (firstLineL message.toList)),
   timestamp, repo_name, branch_name, stats⟩

/-! ## src/server.rs — the asynchronous ingestion pipeline

`process_image_async` (server.rs lines 314-406) is a sequence of fallible
steps over the server's observable state.  The state tracks the named
artifact files visible in the images directory, the revision cache and the
number of broadcast new-image events.  Each fallible library call (config
load, image decode, background replacement, chyron, output-path creation,
temp-file creation, PNG write, atomic rename) is given an outcome bit; the
temporary file is created by `NamedTempFile` with a non-artifact name and
is deleted on drop along every error path, so it never survives into the
final state. -/

/-- Fields of the upload bundle consulted by the pipeline's control flow
(the remaining metadata fields only flow into the saved file's contents). -/
structure UploadMeta where
  revision : String
  repo_name : String
  force : Bool

/-- Success bits for each fallible step of `process_image_async`. -/
structure StepOutcomes where
  configOk : Bool
  decodeOk : Bool
  replaceBgOk : Bool
  chyronOk : Bool
  outputPathOk : Bool
  tempfileOk : Bool
  saveOk : Bool
  persistOk : Bool

/-- The observable server state: visible artifact files in the images
directory, the revision cache, and the count of broadcast events. -/
structure ServerState where
  artifacts : List String
  cache : List String
  broadcasts : ℕ
deriving DecidableEq

/-- server.rs `process_image_async`: load config; skip (successfully) when
the revision is cached and force is not set; decode, composite and
annotate; write to a temporary file and atomically rename it to `outName`;
only then insert the revision into the cache and broadcast.  Every error
path returns with the state unchanged (the temporary file, when already
created, is dropped and deleted). -/
def process_image_async (meta : UploadMeta) (oc : StepOutcomes) (burned_in_chyron : Bool)
    (outName : String) (s : ServerState) : Bool × ServerState :=
  if oc.configOk then
    if !meta.force && s.cache.contains meta.revision then (true, s)
    else if oc.decodeOk then
      if oc.replaceBgOk then
        if !burned_in_chyron || oc.chyronOk then
          if oc.outputPathOk then
            if oc.tempfileOk then
              if oc.saveOk then
                if oc.persistOk then
                  (true, { artifacts := outName :: s.artifacts,
                           cache := meta.revision :: s.cache,
                           broadcasts := s.broadcasts + 1 })
                else (false, s)
              else (false, s)
            else (false, s)
          else (false, s)
        else (false, s)
      else (false, s)
    else (false, s)
  else (false, s)

/-- All fallible steps of one run succeed. -/
def all_ok (oc : StepOutcomes) : Bool :=
  oc.configOk && oc.decodeOk && oc.replaceBgOk && oc.chyronOk &&
  oc.outputPathOk && oc.tempfileOk && oc.saveOk && oc.persistOk

/-! ## Helper lemmas: the decimal round trip -/

theorem decDigitsAux_lt (f : ℕ) : ∀ (n : ℕ), ∀ d ∈ decDigitsAux f n, d < 10 := by
  induction f with
  | zero => intro n d hd; simp [decDigitsAux] at hd
  | succ f ih =>
    intro n d hd
    simp only [decDigitsAux] at hd
    split at hd
    · simp at hd
    · rcases List.mem_cons.mp hd with h | h
      · omega
      · exact ih (n / 10) d h

theorem decDigitsAux_foldr (f : ℕ) :
    ∀ (n : ℕ), n ≤ f → (decDigitsAux f n).foldr (fun d a => a * 10 + d) 0 = n := by
  induction f with
  | zero => intro n hn; simp only [decDigitsAux, List.foldr_nil]; omega
  | succ f ih =>
    intro n hn
    simp only [decDigitsAux]
    split
    · simpa using by omega
    · simp only [List.foldr_cons]
      rw [ih (n / 10) (by omega)]
      omega

theorem decDigitsAux_ne_nil (f n : ℕ) (hf : 1 ≤ f) (hn : n ≠ 0) : decDigitsAux f n ≠ [] := by
  cases f with
  | zero => omega
  | succ f => simp [decDigitsAux, hn]

theorem digitChar_props : ∀ d, d < 10 →
    (Nat.digitChar d).isDigit = true ∧ (Nat.digitChar d).toNat - 48 = d ∧
    Nat.digitChar d ≠ '+' := by decide

theorem foldl_digitChar (l : List ℕ) (h : ∀ d ∈ l, d < 10) :
    ∀ acc, (l.map Nat.digitChar).foldl (fun a c => a * 10 + (c.toNat - 48)) acc =
      l.foldl (fun a d => a * 10 + d) acc := by
  induction l with
  | nil => intro acc; rfl
  | cons d t ih =>
    intro acc
    simp only [List.map_cons, List.foldl_cons]
    rw [(digitChar_props d (h d (List.mem_cons_self d t))).2.1]
    exact ih (fun e he => h e (List.mem_cons_of_mem d he)) _

theorem all_isDigit_digitChar (l : List ℕ) (h : ∀ d ∈ l, d < 10) :
    (l.map Nat.digitChar).all Char.isDigit = true := by
  rw [List.all_eq_true]
  intro c hc
  rcases List.mem_map.mp hc with ⟨d, hd, rfl⟩
  exact (digitChar_props d (h d hd)).1

theorem parseU32_natToStr (n : ℕ) (h : n < 4294967296) : parseU32 (natToStr n) = some n := by
  by_cases h0 : n = 0
  · subst h0; decide
  · have hd10 : ∀ d ∈ (decDigitsAux n n).reverse, d < 10 := by
      intro d hd; exact decDigitsAux_lt n n d (List.mem_reverse.mp hd)
    have hne : (decDigitsAux n n).reverse ≠ [] := by
      simp only [ne_eq, List.reverse_eq_nil_iff]
      exact decDigitsAux_ne_nil n n (by omega) h0
    have hval : ((decDigitsAux n n).reverse).foldl (fun a d => a * 10 + d) 0 = n := by
      rw [List.foldl_reverse]
      exact decDigitsAux_foldr n n le_rfl
    unfold natToStr
    rw [if_neg h0]
    unfold parseU32
    rcases hl : (decDigitsAux n n).reverse with _ | ⟨d, t⟩
    · exact absurd hl hne
    · have hd : d < 10 := hd10 d (by rw [hl]; exact List.mem_cons_self d t)
      simp only [String.toList, hl, List.map_cons, List.headD_cons]
      rw [if_neg (digitChar_props d hd).2.2, if_neg (by simp)]
      have hall := all_isDigit_digitChar ((decDigitsAux n n).reverse) hd10
      rw [hl, List.map_cons] at hall
      rw [if_pos hall]
      have hv : digitsVal (Nat.digitChar d :: t.map Nat.digitChar) = n := by
        have := foldl_digitChar ((decDigitsAux n n).reverse) hd10 0
        rw [hl, List.map_cons] at this
        unfold digitsVal
        rw [this]
        rw [hl] at hval
        exact hval
      rw [hv, if_pos h]

theorem step_sha (st : ReadAcc) (t : String) :
    read_chunk_step st ⟨"lolcommit:sha", t⟩ = { st with sha := t, found_any := true } := rfl

theorem step_message (st : ReadAcc) (t : String) :
    read_chunk_step st ⟨"lolcommit:message", t⟩ = { st with message := t, found_any := true } := rfl

theorem step_type (st : ReadAcc) (t : String) :
    read_chunk_step st ⟨"lolcommit:type", t⟩ = { st with commit_type := t, found_any := true } := rfl

theorem step_scope (st : ReadAcc) (t : String) :
    read_chunk_step st ⟨"lolcommit:scope", t⟩ = { st with scope := t, found_any := true } := rfl

theorem step_timestamp (st : ReadAcc) (t : String) :
    read_chunk_step st ⟨"lolcommit:timestamp", t⟩ = { st with timestamp := t, found_any := true } := rfl

theorem step_repo (st : ReadAcc) (t : String) :
    read_chunk_step st ⟨"lolcommit:repo", t⟩ = { st with repo_name := t, found_any := true } := rfl

theorem step_branch (st : ReadAcc) (t : String) :
    read_chunk_step st ⟨"lolcommit:branch", t⟩ = { st with branch_name := t, found_any := true } := rfl

theorem step_diff (st : ReadAcc) (t : String) :
    read_chunk_step st ⟨"lolcommit:diff", t⟩ = st := rfl

theorem step_files (st : ReadAcc) (t : String) :
    read_chunk_step st ⟨"lolcommit:files_changed", t⟩ =
      { st with files_changed := (parseU32 t).getD 0, found_any := true } := rfl

theorem step_ins (st : ReadAcc) (t : String) :
    read_chunk_step st ⟨"lolcommit:insertions", t⟩ =
      { st with insertions := (parseU32 t).getD 0, found_any := true } := rfl

theorem step_del (st : ReadAcc) (t : String) :
    read_chunk_step st ⟨"lolcommit:deletions", t⟩ =
      { st with deletions := (parseU32 t).getD 0, found_any := true } := rfl

set_option maxHeartbeats 2000000 in
theorem read_save_chunks (md : CommitMetadata)
    (h1 : md.stats.files_changed < 4294967296)
    (h2 : md.stats.insertions < 4294967296)
    (h3 : md.stats.deletions < 4294967296) :
    read_png_metadata (save_chunks md) = some md := by
  unfold read_png_metadata save_chunks
  by_cases hs : md.scope = ""
  · rw [if_pos hs]
    simp only [List.cons_append, List.nil_append, List.foldl_cons, List.foldl_nil,
      step_sha, step_message, step_type, step_timestamp, step_repo,
      step_branch, step_diff, step_files, step_ins, step_del, if_true]
    rw [parseU32_natToStr md.stats.files_changed h1,
        parseU32_natToStr md.stats.insertions h2,
        parseU32_natToStr md.stats.deletions h3]
    simp only [Option.getD_some]
    rw [← hs]
  · rw [if_neg hs]
    simp only [List.cons_append, List.nil_append, List.foldl_cons, List.foldl_nil,
      step_sha, step_message, step_type, step_scope, step_timestamp, step_repo,
      step_branch, step_diff, step_files, step_ins, step_del, if_true]
    rw [parseU32_natToStr md.stats.files_changed h1,
        parseU32_natToStr md.stats.insertions h2,
        parseU32_natToStr md.stats.deletions h3]
    simp only [Option.getD_some]

/-- C1: decoding the PNG produced by `save_png_with_metadata` returns the
pixel payload unchanged and `some` metadata equal to the input field for
field; a scope that was empty at encode time (and therefore omitted from
the chunk set) comes back as the empty string.  The diff-stat counts are
u32 values, hence the bounds. -/
theorem png_roundtrip (image : List RgbaPixel) (md : CommitMetadata)
    (h1 : md.stats.files_changed < 4294967296)
    (h2 : md.stats.insertions < 4294967296)
    (h3 : md.stats.deletions < 4294967296) :
    decode_png (save_png_with_metadata image md) = (image, some md) := by
  unfold decode_png save_png_with_metadata
  rw [read_save_chunks md h1 h2 h3]

/-- Witness for C1 at a concrete image and metadata (one with an empty
scope, exercising the omitted-chunk branch). -/
theorem png_roundtrip_witness :
    decode_png (save_png_with_metadata [(1, 2, 3, 255), (4, 5, 6, 0)]
      ⟨"abc1234", "fix: bug", "fix", "", "2024-01-02 15:30:00", "myrepo", "main", ⟨1, 2, 3⟩⟩) =
    ([(1, 2, 3, 255), (4, 5, 6, 0)],
     some ⟨"abc1234", "fix: bug", "fix", "", "2024-01-02 15:30:00", "myrepo", "main", ⟨1, 2, 3⟩⟩) :=
  png_roundtrip _ _ (by decide) (by decide) (by decide)

/-- C5 (code-bug evidence): on the filename
`myrepo-20240102-153000-abc1234.png` with no embedded chunks, the filename
fallback of `parse_image_file` returns repo name "myrepo-20240102" and
timestamp "myrepo-20240102-153000" (the sha is "abc1234"), because
`rsplitn(3, '-')` cuts inside the dash-containing `%Y%m%d-%H%M%S` time
part; `parse_timestamp` itself would render the intended
"2024-01-02 15:30:00" had the full 15-character time part reached it. -/
theorem parse_image_file_misparses :
    parse_image_file none "myrepo-20240102-153000-abc1234.png" =
      some ⟨"abc1234", "", "", "", "myrepo-20240102-153000", "myrepo-20240102", "", ⟨0, 0, 0⟩⟩ ∧
    parse_timestamp "20240102-153000" = some "2024-01-02 15:30:00" ∧
    ("myrepo-20240102" : String) ≠ "myrepo" ∧
    ("myrepo-20240102-153000" : String) ≠ "2024-01-02 15:30:00" := by
  refine ⟨by decide, by decide, by decide, by decide⟩

theorem findCharIdx_of_not_mem {c : Char} {l : List Char} (h : c ∉ l) :
    findCharIdx c l = none := by
  induction l with
  | nil => rfl
  | cons a t ih =>
    simp only [findCharIdx]
    rw [if_neg (fun he : a = c => h (he ▸ List.mem_cons_self a t)),
        ih (fun ht => h (List.mem_cons_of_mem a ht))]
    rfl

theorem mem_of_mem_firstLineL {c : Char} {m : List Char} (h : c ∈ firstLineL m) : c ∈ m := by
  simp only [firstLineL] at h
  split at h
  · exact List.takeWhile_subset _ (List.mem_of_mem_dropLast h)
  · exact List.takeWhile_subset _ h

/-- C6: conventional-commit parsing — "feat(api): add endpoint" gives type
"feat", scope "api", stripped message "add endpoint"; "fix: bug" gives type
"fix", scope "", stripped message "bug"; and any message containing no
colon gives type "commit", scope "", and is returned unchanged by the
stripper. -/
theorem conventional_commit_parsing :
    parse_commit_type "feat(api): add endpoint" = "feat" ∧
    parse_commit_scope "feat(api): add endpoint" = "api" ∧
    strip_commit_prefix_fn "feat(api): add endpoint" = "add endpoint" ∧
    parse_commit_type "fix: bug" = "fix" ∧
    parse_commit_scope "fix: bug" = "" ∧
    strip_commit_prefix_fn "fix: bug" = "bug" ∧
    ∀ message : String, ':' ∉ message.toList →
      parse_commit_type message = "commit" ∧
      parse_commit_scope message = "" ∧
      strip_commit_prefix_fn message = message := by
  refine ⟨by decide, by decide, by decide, by decide, by decide, by decide, ?_⟩
  intro message h
  refine ⟨?_, ?_, ?_⟩
  · simp only [parse_commit_type]
    rw [findCharIdx_of_not_mem (fun hc => h (mem_of_mem_firstLineL hc))]
  · simp only [parse_commit_scope]
    rw [findCharIdx_of_not_mem h]
  · simp only [strip_commit_prefix_fn]
    rw [findCharIdx_of_not_mem h]

/-- Witness for C6's universal no-colon clause at the message
"update readme". -/
theorem conventional_commit_parsing_witness :
    parse_commit_type "update readme" = "commit" ∧
    parse_commit_scope "update readme" = "" ∧
    strip_commit_prefix_fn "update readme" = "update readme" :=
  conventional_commit_parsing.2.2.2.2.2.2 "update readme" (by decide)
/-- C7: `format_stat_number` renders 42 as "42", 1234 as "1.2k" and
1567890 as "1.6M"; and in the chyron's stats block any diff-stat field
whose value is 0 contributes no drawn item (identified by its colour:
files-changed yellow, insertions green, deletions red) and no term to the
width computation. -/
theorem stat_formatting_and_zero_omission :
    format_stat_number 42 = "42" ∧
    format_stat_number 1234 = "1.2k" ∧
    format_stat_number 1567890 = "1.6M" ∧
    ∀ (w : ℕ) (iy : ℤ) (s : DiffStats),
      (s.files_changed = 0 →
        (255, 255, 0, 255) ∉ (stats_draw_items w iy s).map DrawnText.color ∧
        stats_total_width s =
          (if 0 < s.insertions then ((insert_str s).length : ℤ) * 10 + 10 else 0) +
          (if 0 < s.deletions then ((delete_str s).length : ℤ) * 10 else 0)) ∧
      (s.insertions = 0 →
        (0, 255, 0, 255) ∉ (stats_draw_items w iy s).map DrawnText.color ∧
        stats_total_width s =
          (if 0 < s.files_changed then ((files_str s).length : ℤ) * 10 + 10 else 0) +
          (if 0 < s.deletions then ((delete_str s).length : ℤ) * 10 else 0)) ∧
      (s.deletions = 0 →
        (255, 0, 0, 255) ∉ (stats_draw_items w iy s).map DrawnText.color ∧
        stats_total_width s =
          (if 0 < s.files_changed then ((files_str s).length : ℤ) * 10 + 10 else 0) +
          (if 0 < s.insertions then ((insert_str s).length : ℤ) * 10 + 10 else 0)) := by
  refine ⟨by decide, by decide, by decide, ?_⟩
  intro w iy s
  rcases s with ⟨f, i, d⟩
  refine ⟨?_, ?_, ?_⟩
  · rintro rfl
    by_cases hi : i = 0 <;> by_cases hd : d = 0 <;>
      simp [stats_draw_items, stats_total_width, stats_start_x, diff_stats_is_empty,
            hi, hd, Nat.pos_iff_ne_zero, lt_self_iff_false, ne_eq]
  · rintro rfl
    by_cases hf : f = 0 <;> by_cases hd : d = 0 <;>
      simp [stats_draw_items, stats_total_width, stats_start_x, diff_stats_is_empty,
            hf, hd, Nat.pos_iff_ne_zero, lt_self_iff_false, ne_eq]
  · rintro rfl
    by_cases hf : f = 0 <;> by_cases hi : i = 0 <;>
      simp [stats_draw_items, stats_total_width, stats_start_x, diff_stats_is_empty,
            hf, hi, Nat.pos_iff_ne_zero, lt_self_iff_false, ne_eq]

/-- Witness for C7's omission clause at stats with zero files changed,
five insertions and three deletions. -/
theorem stat_formatting_witness :
    (255, 255, 0, 255) ∉ (stats_draw_items 640 445 ⟨0, 5, 3⟩).map DrawnText.color ∧
    stats_total_width ⟨0, 5, 3⟩ =
      (if 0 < (5 : ℕ) then ((insert_str ⟨0, 5, 3⟩).length : ℤ) * 10 + 10 else 0) +
      (if 0 < (3 : ℕ) then ((delete_str ⟨0, 5, 3⟩).length : ℤ) * 10 else 0) :=
  (stat_formatting_and_zero_omission.2.2.2 640 445 ⟨0, 5, 3⟩).1 rfl

/-- C9: the band step of the chyron overlay changes only rows in the bottom
80 of an image of height at least 80 — rows above the band and rows outside
the image are untouched — and inside the band it replaces each RGB channel
value v by v * (1 - opacity) truncated to 8 bits while keeping the alpha
sample unchanged. -/
theorem chyron_band_frame (h : ℕ) (op : ℚ) (px : ℕ → ℕ → RgbaPixel) (x y : ℕ)
    (hh : 80 ≤ h) (h32 : h < 4294967296) :
    (y < h - 80 → chyron_band h op px x y = px x y) ∧
    (h ≤ y → chyron_band h op px x y = px x y) ∧
    (h - 80 ≤ y → y < h →
      chyron_band h op px x y =
        (toU8 ((px x y).1 * (1 - op)), toU8 ((px x y).2.1 * (1 - op)),
         toU8 ((px x y).2.2.1 * (1 - op)), (px x y).2.2.2)) := by
  have hys : chyron_y_start h = h - 80 := by unfold chyron_y_start; omega
  unfold chyron_band
  rw [hys]
  refine ⟨?_, ?_, ?_⟩
  · intro hy; rw [if_neg (by omega)]
  · intro hy; rw [if_neg (by omega)]
  · intro hy1 hy2
    rw [if_pos ⟨hy1, hy2⟩]
    simp only [zero_mul, zero_add]

/-- Witness for C9 on an 81-row image with opacity one half: row 0 is above
the band and untouched, row 1 is inside the band and blended with alpha
kept. -/
theorem chyron_band_frame_witness :
    chyron_band 81 (1 / 2) (fun _ _ => (101, 50, 7, 200)) 0 0 = (101, 50, 7, 200) ∧
    chyron_band 81 (1 / 2) (fun _ _ => (101, 50, 7, 200)) 0 1 =
      (toU8 ((101 : ℕ) * (1 - 1 / 2)), toU8 ((50 : ℕ) * (1 - 1 / 2)),
       toU8 ((7 : ℕ) * (1 - 1 / 2)), 200) :=
  ⟨(chyron_band_frame 81 (1 / 2) _ 0 0 (by omega) (by omega)).1 (by omega),
   (chyron_band_frame 81 (1 / 2) _ 0 1 (by omega) (by omega)).2.2 (by omega) (by omega)⟩

/-- C10: the band start row `height - 80` is an unguarded u32 subtraction:
for heights of at least 80 it equals height - 80 and every band row index
stays within the image, while for a shorter image the checked (debug)
subtraction panics and the wrapping (release) subtraction lands at
height + 2^32 - 80, an out-of-bounds row index beyond the image height. -/
theorem chyron_y_start_unguarded (h : ℕ) (h32 : h < 4294967296) :
    (80 ≤ h →
      chyron_y_start h = h - 80 ∧
      u32_checked_sub h 80 = some (h - 80) ∧
      chyron_y_start h ≤ h) ∧
    (h < 80 →
      u32_checked_sub h 80 = none ∧
      chyron_y_start h = h + 4294967216 ∧
      h < chyron_y_start h) := by
  unfold chyron_y_start u32_checked_sub
  constructor
  · intro hh
    refine ⟨by omega, by rw [if_pos hh], by omega⟩
  · intro hh
    refine ⟨by rw [if_neg (by omega)], by omega, by omega⟩

/-- Witness for C10 at heights 100 (in range) and 50 (underflow). -/
theorem chyron_y_start_unguarded_witness :
    (chyron_y_start 100 = 100 - 80 ∧ u32_checked_sub 100 80 = some (100 - 80) ∧
      chyron_y_start 100 ≤ 100) ∧
    (u32_checked_sub 50 80 = none ∧ chyron_y_start 50 = 50 + 4294967216 ∧
      50 < chyron_y_start 50) :=
  ⟨(chyron_y_start_unguarded 100 (by omega)).1 (by omega),
   (chyron_y_start_unguarded 50 (by omega)).2 (by omega)⟩

/-- C8 counterexample: for the commit message "fix: bug" the text rendered
on the chyron's title line is the raw message "fix: bug", which differs
from `strip_commit_prefix` of the message ("bug"); the claim that the title
line is the prefix-stripped message fails. -/
theorem chyron_title_not_stripped :
    ((chyron_texts 640 480
        ⟨"abc1234", "fix: bug", "fix", "", "2024-01-02 15:30:00", "myrepo", "main",
         ⟨1, 2, 3⟩⟩).head?.map DrawnText.text) = some "fix: bug" ∧
    strip_commit_prefix_fn "fix: bug" = "bug" ∧
    some ("fix: bug" : String) ≠ some ("bug" : String) :=
  ⟨rfl, by decide, by decide⟩

/-- C8 amended: the title line drawn by the chyron renderer is the raw
commit message carried in the metadata (capture uploads the message whole,
the server copies it into the drawn metadata), with no conventional-commit
prefix stripping along the way. -/
theorem chyron_title_is_raw_message (w h : ℕ)
    (revision message timestamp repo_name branch_name : String) (stats : DiffStats) :
    ((chyron_texts w h
        (capture_commit_metadata revision message timestamp repo_name branch_name
          stats)).head?.map DrawnText.text) = some message := rfl

/-- C4: when the mask-weighted centroid of the pixels above the 0.1
threshold is exactly the image center, `replace_background` computes the
integer offset (0, 0) and the composite at every pixel is the pure
per-pixel blend source * mask + background * (1 - mask) at that same
pixel, with no spatial shift. -/
theorem replace_background_centered (w h : ℕ) (mask : ℕ → ℚ) (fg bg : ℕ → RgbPixel)
    (ht : 0 < mask_total w h mask)
    (hx : mask_sum_x w h mask / mask_total w h mask = (w : ℚ) / 2)
    (hy : mask_sum_y w h mask / mask_total w h mask = (h : ℚ) / 2) :
    bg_offset w h mask = (0, 0) ∧
    ∀ x y : ℕ, x < w → y < h →
      composite_at w h mask fg bg x y = pure_blend_at w mask fg bg x y := by
  have hpc : person_center w h mask = ((w : ℚ) / 2, (h : ℚ) / 2) := by
    unfold person_center
    rw [if_pos ht, hx, hy]
  have hoff : bg_offset w h mask = (0, 0) := by
    unfold bg_offset
    rw [hpc]
    simp only [sub_self]
    unfold truncQ
    norm_num
  refine ⟨hoff, ?_⟩
  intro x y hx' hy'
  unfold composite_at
  rw [hoff]
  simp only [sub_zero]
  rw [if_pos (by constructor; omega; constructor; omega; constructor; omega; omega)]
  simp only [Int.toNat_natCast]
  rfl


/-- Witness for C4 on a 2-by-2 image whose mask selects only the pixel at
(1, 1), making the weighted centroid (1, 1) = the geometric center. -/
theorem replace_background_centered_witness :
    bg_offset 2 2 (fun i => if i = 3 then 1 else 0) = (0, 0) ∧
    composite_at 2 2 (fun i => if i = 3 then 1 else 0)
        (fun _ => (100, 150, 200)) (fun _ => (10, 20, 30)) 1 1 =
      pure_blend_at 2 (fun i => if i = 3 then 1 else 0)
        (fun _ => (100, 150, 200)) (fun _ => (10, 20, 30)) 1 1 := by
  have ht : 0 < mask_total 2 2 (fun i => if i = 3 then 1 else 0) := by
    simp [mask_total, List.range_succ]
    norm_num
  have hcx : mask_sum_x 2 2 (fun i => if i = 3 then 1 else 0) /
      mask_total 2 2 (fun i => if i = 3 then 1 else 0) = ((2 : ℕ) : ℚ) / 2 := by
    simp [mask_sum_x, mask_total, List.range_succ]
    norm_num
  have hcy : mask_sum_y 2 2 (fun i => if i = 3 then 1 else 0) /
      mask_total 2 2 (fun i => if i = 3 then 1 else 0) = ((2 : ℕ) : ℚ) / 2 := by
    simp [mask_sum_y, mask_total, List.range_succ]
    norm_num
  exact ⟨(replace_background_centered 2 2 _ (fun _ => (100, 150, 200))
            (fun _ => (10, 20, 30)) ht hcx hcy).1,
         (replace_background_centered 2 2 _ (fun _ => (100, 150, 200))
            (fun _ => (10, 20, 30)) ht hcx hcy).2 1 1 (by omega) (by omega)⟩

/-- C2: if the PNG write into the temporary file or the atomic rename out
of it fails, `process_image_async` leaves the observable server state
exactly as it was — no artifact becomes visible and no cache entry or
broadcast is added — and conversely the cache can only change in a run
whose write and rename both succeeded, which also renamed the artifact
into place. -/
theorem process_atomicity (meta : UploadMeta) (oc : StepOutcomes) (bc : Bool)
    (outName : String) (s : ServerState) :
    ((oc.saveOk = false ∨ oc.persistOk = false) →
      (process_image_async meta oc bc outName s).2 = s) ∧
    ((process_image_async meta oc bc outName s).2.cache ≠ s.cache →
      oc.saveOk = true ∧ oc.persistOk = true ∧
      (process_image_async meta oc bc outName s).2.artifacts = outName :: s.artifacts) := by
  unfold process_image_async
  repeat' split
  all_goals constructor
  all_goals first
    | (intro hfail; rfl)
    | (intro hch; exact absurd rfl hch)
    | (intro hfail; rcases hfail with hf | hf <;> simp_all)
    | (intro hch; refine ⟨by assumption, by assumption, rfl⟩)

/-- After any fully successful run (and also after a dedup skip, which
presupposes membership), the uploaded revision is in the revision cache. -/
theorem process_cache_member (meta : UploadMeta) (oc : StepOutcomes) (bc : Bool)
    (outName : String) (s : ServerState) (hok : all_ok oc = true) :
    (process_image_async meta oc bc outName s).1 = true ∧
    (process_image_async meta oc bc outName s).2.cache.contains meta.revision = true := by
  simp only [all_ok, Bool.and_eq_true] at hok
  obtain ⟨⟨⟨⟨⟨⟨⟨h1, h2⟩, h3⟩, h4⟩, h5⟩, h6⟩, h7⟩, h8⟩ := hok
  unfold process_image_async
  rw [h1, h2, h3, h4, h5, h6, h7, h8]
  simp only [Bool.or_true, if_true]
  split
  · rename_i hskip
    rw [Bool.and_eq_true] at hskip
    exact ⟨rfl, hskip.2⟩
  · simp [List.contains_cons]

/-- C3: after a first upload of a revision processes successfully, a second
upload of the same revision with force unset is a successful no-op — the
state, so in particular the artifact list and the broadcast count, is
returned unchanged — while a second upload with force set is processed and
persisted (a new artifact, one more broadcast) and the revision remains a
member of the cache. -/
theorem dedup_two_uploads (meta : UploadMeta) (oc : StepOutcomes) (bc : Bool)
    (on1 on2 : String) (s : ServerState) (hok : all_ok oc = true) :
    (process_image_async { meta with force := false } oc bc on2
        (process_image_async meta oc bc on1 s).2 =
      (true, (process_image_async meta oc bc on1 s).2)) ∧
    ((process_image_async { meta with force := true } oc bc on2
        (process_image_async meta oc bc on1 s).2).1 = true ∧
     (process_image_async { meta with force := true } oc bc on2
        (process_image_async meta oc bc on1 s).2).2.artifacts =
       on2 :: (process_image_async meta oc bc on1 s).2.artifacts ∧
     (process_image_async { meta with force := true } oc bc on2
        (process_image_async meta oc bc on1 s).2).2.cache.contains meta.revision = true ∧
     (process_image_async { meta with force := true } oc bc on2
        (process_image_async meta oc bc on1 s).2).2.broadcasts =
       (process_image_async meta oc bc on1 s).2.broadcasts + 1) := by
  have hmem := (process_cache_member meta oc bc on1 s hok).2
  simp only [all_ok, Bool.and_eq_true] at hok
  obtain ⟨⟨⟨⟨⟨⟨⟨h1, h2⟩, h3⟩, h4⟩, h5⟩, h6⟩, h7⟩, h8⟩ := hok
  generalize hs1 : (process_image_async meta oc bc on1 s).2 = s1 at hmem ⊢
  constructor
  · simp only [process_image_async]
    rw [h1, h2, h3, h4, h5, h6, h7, h8]
    simp only [Bool.or_true, if_true, Bool.not_false, Bool.true_and, hmem]
  · simp only [process_image_async]
    rw [h1, h2, h3, h4, h5, h6, h7, h8]
    simp [List.contains_cons]

/-- Witness for C2: a run whose rename step fails returns the state
unchanged. -/
theorem process_atomicity_witness :
    (process_image_async ⟨"abc1234", "myrepo", false⟩
      ⟨true, true, true, true, true, true, true, false⟩ true "out.png"
      ⟨["old.png"], ["r0"], 5⟩).2 = ⟨["old.png"], ["r0"], 5⟩ :=
  (process_atomicity ⟨"abc1234", "myrepo", false⟩
    ⟨true, true, true, true, true, true, true, false⟩ true "out.png"
    ⟨["old.png"], ["r0"], 5⟩).1 (Or.inr rfl)

/-- Witness for C3: the duplicate force-unset upload after a successful
first upload returns the first run's state unchanged. -/
theorem dedup_two_uploads_witness :
    process_image_async { (⟨"abc1234", "myrepo", false⟩ : UploadMeta) with force := false }
      ⟨true, true, true, true, true, true, true, true⟩ true "b.png"
      (process_image_async ⟨"abc1234", "myrepo", false⟩
        ⟨true, true, true, true, true, true, true, true⟩ true "a.png" ⟨[], [], 0⟩).2 =
    (true, (process_image_async ⟨"abc1234", "myrepo", false⟩
        ⟨true, true, true, true, true, true, true, true⟩ true "a.png" ⟨[], [], 0⟩).2) :=
  (dedup_two_uploads ⟨"abc1234", "myrepo", false⟩
    ⟨true, true, true, true, true, true, true, true⟩ true "a.png" "b.png"
    ⟨[], [], 0⟩ rfl).1
